import Mathlib

/-!
Shallow embedding of the content-acquisition core of
`src/social_media_emotional_bias_detector/tools/reddit_api_tool.py`
(class `RedditAPITool`): URL building, the layered fetch with fallbacks,
response validation, post extraction, post filtering and failure
classification.  Python dynamic values are modelled by an inductive `Json`
type; Python exceptions that the source lets escape a given scope are
modelled by `Option`/`Except` returns; the network and the clock are
passed in as explicit parameters.
-/

/-- A decoded JSON value, the type of every dynamic Python value the tool
handles (`RawPayload`, `RawPost`, individual fields).  Python `dict`s are
association lists (keys unique in every payload the theorems touch). -/
inductive Json where
  | null
  | bool (b : Bool)
  | int (n : Int)
  | str (s : String)
  | arr (xs : List Json)
  | obj (fields : List (String × Json))

/-- Python truthiness (`if x:`) of a JSON value: `None`, `False`, `0`, `""`,
`[]` and `{}` are falsy. -/
def Json.truthy : Json → Bool
  | .null => false
  | .bool b => b
  | .int n => n != 0
  | .str s => s != ""
  | .arr xs => !xs.isEmpty
  | .obj fs => !fs.isEmpty

/-- Key lookup in a JSON object (`d[k]` when the key is present, or the
non-default part of `d.get(k)`); `none` on a missing key or a non-object. -/
def Json.get? : Json → String → Option Json
  | .obj fs, k => (fs.find? (fun kv => kv.1 == k)).map (fun kv => kv.2)
  | _, _ => none

/-- Python `d.get(k, default)` on a value known to be a `dict`. -/
def Json.getD (j : Json) (k : String) (d : Json) : Json :=
  (j.get? k).getD d

/-- The name Python reports for a value's type, as it appears in
`AttributeError` messages such as `'int' object has no attribute 'get'`. -/
def pyTypeName : Json → String
  | .null => "NoneType"
  | .bool _ => "bool"
  | .int _ => "int"
  | .str _ => "str"
  | .arr _ => "list"
  | .obj _ => "dict"

/-- Python `x == lit` for a string literal `lit`: values of any other type
compare unequal without raising. -/
def Json.eqStr (j : Json) (lit : String) : Bool :=
  match j with
  | .str s => s == lit
  | _ => false

/-- Substring search (`pat` occurs contiguously in `l`). -/
def listInfix (pat : List Char) : List Char → Bool
  | [] => pat.isEmpty
  | c :: rest => pat.isPrefixOf (c :: rest) || listInfix pat rest

/-- Python `key in container`: key membership for a `dict`, substring test
for a `str`, element equality for a `list`; `none` models the `TypeError`
raised on a non-container. -/
def jsonIn (container : Json) (key : String) : Option Bool :=
  match container with
  | .obj fs => some (fs.any (fun kv => kv.1 == key))
  | .str s => some (listInfix key.data s.data)
  | .arr xs => some (xs.any (fun x => x.eqStr key))
  | _ => none

/-- Python `container[key]` with a string key: `none` models the `KeyError`
(missing key) or `TypeError` (non-`dict`) this raises. -/
def pyIndex (container : Json) (key : String) : Option Json :=
  match container with
  | .obj fs => (fs.find? (fun kv => kv.1 == key)).map (fun kv => kv.2)
  | _ => none

/-- Python `len(x)` for the container shapes the validator can meet:
list length, string length, number of dict keys; `none` is the `TypeError`
on anything else. -/
def pyLen : Json → Option Nat
  | .arr xs => some xs.length
  | .str s => some s.length
  | .obj fs => some fs.length
  | _ => none

/-- Python iteration `for x in v`: list elements, the characters of a
string (each a one-character `str`), the keys of a `dict`; `none` is the
`TypeError` on a non-iterable. -/
def iterTargets : Json → Option (List Json)
  | .arr xs => some xs
  | .str s => some (s.data.map (fun c => Json.str (String.mk [c])))
  | .obj fs => some (fs.map (fun kv => Json.str kv.1))
  | _ => none

/-- Python `s.strip()`: drop leading and trailing whitespace. -/
def pyStrip (s : String) : String :=
  String.mk (((s.data.dropWhile Char.isWhitespace).reverse.dropWhile
    Char.isWhitespace).reverse)

/-- Python `s.strip("/")`: drop leading and trailing slashes. -/
def stripSlashes (s : String) : String :=
  String.mk (((s.data.dropWhile (fun c => c == '/')).reverse.dropWhile
    (fun c => c == '/')).reverse)

/-- Python `s.rstrip("/")`: drop trailing slashes. -/
def rstripSlashes (s : String) : String :=
  String.mk ((s.data.reverse.dropWhile (fun c => c == '/')).reverse)

/-- Python `s.lower()` (ASCII letters, all the tool's markers are ASCII). -/
def pyLower (s : String) : String :=
  String.mk (s.data.map Char.toLower)

/-- Python `pat in s` on strings: substring containment. -/
def strContains (s pat : String) : Bool :=
  listInfix pat.data s.data

/-- Python `s.startswith(pre)`. -/
def strStartsWith (s pre : String) : Bool :=
  pre.data.isPrefixOf s.data

/-- Python `s.replace(pat, "")` (all non-overlapping occurrences, left to
right), by fuel on the remaining length. -/
def dropPatAux (pat : List Char) : Nat → List Char → List Char
  | _, [] => []
  | 0, l => l
  | fuel + 1, c :: rest =>
    if pat.isPrefixOf (c :: rest) then
      dropPatAux pat fuel ((c :: rest).drop pat.length)
    else
      c :: dropPatAux pat fuel rest

/-- Python `s.replace(pat, "")` on strings (`pat` nonempty). -/
def dropPat (s pat : String) : String :=
  String.mk (dropPatAux pat.data s.data.length s.data)

/-- One pass of `re.sub(r"&[a-zA-Z]+;", " ", _)`: at each `&` followed by a
nonempty ASCII-letter run and a `;`, the whole entity becomes one space
(fuel = length of the remaining list). -/
def stripEntitiesAux : Nat → List Char → List Char
  | _, [] => []
  | 0, l => l
  | fuel + 1, c :: rest =>
    if c == '&' then
      let run := rest.takeWhile Char.isAlpha
      match run, rest.drop run.length with
      | _ :: _, ';' :: tail => ' ' :: stripEntitiesAux fuel tail
      | _, _ => c :: stripEntitiesAux fuel rest
    else
      c :: stripEntitiesAux fuel rest

/-- The character class of `re.sub(r"[*_`#\\[\\]()]", " ", _)`: in that
raw string the class closes at the `\\]`, so it holds `*`, `_`, backtick,
`#`, backslash and `[`; after the class the pattern continues with an
empty group `()` and a literal `]`. -/
def mdChars : List Char := ['*', '_', '`', '#', '\\', '[']

/-- The markdown pass of `_filter_posts`: the regex matches one class
character immediately followed by `]` (class, empty capturing group,
literal `]`), so only such two-character pairs collapse to a single
space, scanning left to right without overlap; a bare markdown character
— and a `]` not preceded by one — is kept. -/
def stripMdAux : Nat → List Char → List Char
  | _, [] => []
  | 0, l => l
  | fuel + 1, c :: rest =>
    if c ∈ mdChars then
      match rest with
      | ']' :: tail => ' ' :: stripMdAux fuel tail
      | _ => c :: stripMdAux fuel rest
    else c :: stripMdAux fuel rest

/-- The word-count cleaning of `_filter_posts`: strip HTML entities, then
apply the markdown-pair substitution (fuel = length of the remaining
list). -/
def cleanedText (s : String) : String :=
  let noEntities := stripEntitiesAux s.data.length s.data
  String.mk (stripMdAux noEntities.length noEntities)

/-- Python `s.split()`: split on whitespace runs (empty pieces appear here
and are dropped by the length filter at the use site). -/
def splitWs : List Char → List (List Char)
  | [] => [[]]
  | c :: rest =>
    match splitWs rest with
    | [] => [[]]
    | w :: ws => if c.isWhitespace then [] :: w :: ws else (c :: w) :: ws

/-- `word_count` of `_filter_posts`: tokens of the cleaned text strictly
longer than two characters. -/
def wordCountOf (s : String) : Nat :=
  ((splitWs (cleanedText s).data).filter (fun w => w.length > 2)).length

/-- Characters `urllib.parse` accepts inside a URL scheme. -/
def isSchemeChar (c : Char) : Bool :=
  c.isAlphanum || c == '+' || c == '-' || c == '.'

/-- `urlparse`: the characters after the scheme prefix, when the text up to
the first colon is a valid scheme (nonempty, letter-initial, scheme
characters); otherwise the input unchanged. -/
def afterScheme (l : List Char) : List Char :=
  let pre := l.takeWhile (fun c => c != ':')
  if pre.length == l.length then l
  else
    match pre with
    | [] => l
    | c :: _ =>
      if c.isAlpha && pre.all isSchemeChar then l.drop (pre.length + 1) else l

/-- `urlparse(s).netloc`: present only when the text after the scheme starts
with `//`, and runs to the next `/`, `?` or `#`. -/
def urlNetloc (s : String) : String :=
  match afterScheme s.data with
  | '/' :: '/' :: t =>
    String.mk (t.takeWhile (fun c => c != '/' && c != '?' && c != '#'))
  | _ => ""

/-- `urlparse(s).path`: what follows the netloc (or the whole post-scheme
text when there is no netloc), up to the next `?` or `#`. -/
def urlPath (s : String) : String :=
  let rest := afterScheme s.data
  let afterNet :=
    match rest with
    | '/' :: '/' :: t => t.dropWhile (fun c => c != '/' && c != '?' && c != '#')
    | _ => rest
  String.mk (afterNet.takeWhile (fun c => c != '?' && c != '#'))

/-- `_extract_domain`: the netloc of a string URL starting with `http`;
every failure (falsy value, non-`http` prefix, the `AttributeError` a
non-string raises at `startswith`) is caught and yields `""`. -/
def extractDomain (url : Json) : String :=
  match url with
  | .str s => if s != "" && strStartsWith s "http" then urlNetloc s else ""
  | _ => ""

/-- The mirror domain list of `_build_api_urls`. -/
def domains : List String := ["www.reddit.com", "old.reddit.com"]

/-- The recognised sort modes. -/
def sortModes : List String := ["hot", "new", "top", "rising"]

/-- `_build_api_urls`: one candidate endpoint per mirror domain for
subreddit and user sources; for a direct URL, a mirror contributes a
candidate only when the parsed netloc contains `reddit.com` (the
`urlparse` call never raises on a string, so the `except` arm is dead);
any other source type contributes nothing. -/
def buildApiUrls (source sourceType sortType : String) : List String :=
  domains.foldl (fun urls domain =>
    let baseUrl := "https://" ++ domain
    if sourceType == "subreddit" then
      let subreddit := stripSlashes (dropPat source "r/")
      if sortModes.contains sortType then
        urls ++ [baseUrl ++ "/r/" ++ subreddit ++ "/" ++ sortType ++ ".json"]
      else
        urls ++ [baseUrl ++ "/r/" ++ subreddit ++ "/hot.json"]
    else if sourceType == "user" then
      let username := stripSlashes (dropPat source "u/")
      urls ++ [baseUrl ++ "/user/" ++ username ++ "/submitted.json"]
    else if sourceType == "url" then
      if strContains (urlNetloc source) "reddit.com" then
        urls ++ [baseUrl ++ rstripSlashes (urlPath source) ++ ".json"]
      else urls
    else urls) []

/-- `_validate_response`: accept only a dict whose `data` member contains a
`children` entry of positive length; every raised error (the `in` test or
`len` on an unsupported shape) is caught and rejects.  The
`isinstance(data, list)` arm sits inside the dict branch and is dead, so
list payloads are always rejected. -/
def validateResponse (data : Json) : Bool :=
  match data with
  | .obj _ =>
    match data.get? "data" with
    | some dd =>
      match jsonIn dd "children" with
      | some true =>
        match pyIndex dd "children" with
        | some v =>
          match pyLen v with
          | some n => n > 0
          | none => false
        | none => false
      | _ => false
    | none => false
  | _ => false

/-- The removed/deleted screen at the top of the `_filter_posts` loop body:
`removed_by_category` truthy, or `author` / `selftext` equal to a deletion
marker. -/
def removedCheck (post : Json) : Bool :=
  (post.getD "removed_by_category" .null).truthy
    || (post.getD "author" .null).eqStr "[deleted]"
    || (post.getD "author" .null).eqStr "[removed]"
    || (post.getD "selftext" .null).eqStr "[deleted]"
    || (post.getD "selftext" .null).eqStr "[removed]"

/-- The title/selftext computation of `_filter_posts`: strip both fields
(`none` models the `AttributeError` a non-string field raises at `strip`,
caught by the loop's handler); when selftext is empty and the post is not a
self post, a truthy `url` synthesises `Link to: <domain>`. -/
def contentOf (post : Json) : Option (String × String) :=
  match post.getD "title" (.str ""), post.getD "selftext" (.str "") with
  | .str t0, .str s0 =>
    let title := pyStrip t0
    let selftext0 := pyStrip s0
    let selftext :=
      if selftext0 == "" && !(post.getD "is_self" (.bool false)).truthy then
        let url := post.getD "url" (.str "")
        if url.truthy then "Link to: " ++ extractDomain url else selftext0
      else selftext0
    some (title, selftext)
  | _, _ => none

/-- `full_text` of `_filter_posts`: title and (possibly synthesised)
selftext joined by a space, stripped. -/
def fullTextOf (post : Json) : Option String :=
  (contentOf post).map (fun ts => pyStrip (ts.1 ++ " " ++ ts.2))

/-- `score = max(0, post.get("score", 0))`: `none` models the `TypeError`
`max` raises on a non-numeric score (caught by the loop's handler); a
Python `bool` is an `int`. -/
def scoreOf (post : Json) : Option Int :=
  match post.getD "score" (.int 0) with
  | .int n => some (max 0 n)
  | .bool b => some (max 0 (if b then (1 : Int) else 0))
  | _ => none

/-- `_determine_post_type`: fixed precedence over `is_self`, `post_hint`,
`is_video` and the post URL; `none` models the `AttributeError` raised by
`startswith` on a non-string `url` (caught by the filter loop's handler). -/
def determinePostType (post : Json) : Option String :=
  if (post.getD "is_self" (.bool false)).truthy then some "text"
  else if (post.getD "post_hint" .null).eqStr "image" then some "image"
  else if (post.getD "post_hint" .null).eqStr "rich:video" then some "video"
  else if (post.getD "is_video" (.bool false)).truthy then some "video"
  else if (post.getD "post_hint" .null).eqStr "link" then some "link"
  else
    match post.getD "url" (.str "") with
    | .str u =>
      if strStartsWith u "https://www.reddit.com" then some "crosspost"
      else some "other"
    | _ => none

/-- The `NormalizedPost` record assembled by `_filter_posts`, restricted to
the fields the verified properties touch; fields the source merely copies
from the raw post are carried as raw `Json` values. -/
structure NormalizedPost where
  title : String
  selftext : String
  full_content : String
  author : Json
  subreddit : Json
  score : Int
  word_count : Nat
  post_type : String
  url : Json
  domain : String
  is_self : Json

/-- The `post_data` dict literal of `_filter_posts`. -/
def mkRecord (post : Json) (title selftext fullText : String) (score : Int)
    (wc : Nat) (postType : String) : NormalizedPost :=
  { title := title
    selftext := selftext
    full_content := fullText
    author := post.getD "author" (.str "")
    subreddit := post.getD "subreddit" (.str "")
    score := score
    word_count := wc
    post_type := postType
    url := post.getD "url" (.str "")
    domain := extractDomain (post.getD "url" (.str ""))
    is_self := post.getD "is_self" (.bool false) }

/-- The spam markers of `_validate_post_content`. -/
def spamIndicators : List String :=
  ["[removed]", "[deleted]", "this post was removed", "comment deleted"]

/-- `_validate_post_content`: nonempty stripped title, stripped full
content of length at least 10, no spam marker in the lowercased full
content. -/
def validatePostContent (r : NormalizedPost) : Bool :=
  if pyStrip r.title == "" then false
  else if (pyStrip r.full_content).length < 10 then false
  else if spamIndicators.any (fun ind => strContains (pyLower r.full_content) ind) then
    false
  else true

/-- One iteration of the `_filter_posts` loop: `none` when the post is
skipped (removed/deleted, a caught `KeyError`/`TypeError`/`AttributeError`,
a failed threshold, or failed content validation), `some` the assembled
record when it is admitted. -/
def filterOne (minWords minScore : Int) (post : Json) : Option NormalizedPost :=
  match post with
  | .obj _ =>
    if removedCheck post then none
    else
      match contentOf post with
      | none => none
      | some (title, selftext) =>
        let fullText := pyStrip (title ++ " " ++ selftext)
        let wc := wordCountOf fullText
        match scoreOf post with
        | none => none
        | some score =>
          if (wc : Int) < minWords || score < minScore then none
          else
            match determinePostType post with
            | none => none
            | some postType =>
              let r := mkRecord post title selftext fullText score wc postType
              if validatePostContent r then some r else none
  | _ => none

/-- The `_filter_posts` loop with its accumulated `filtered_posts` list:
after an admission, scanning stops as soon as the accumulator reaches
`limit`. -/
def filterPostsAux (minWords minScore limit : Int)
    (acc : List NormalizedPost) : List Json → List NormalizedPost
  | [] => acc
  | post :: rest =>
    match filterOne minWords minScore post with
    | none => filterPostsAux minWords minScore limit acc rest
    | some r =>
      let acc2 := acc ++ [r]
      if (acc2.length : Int) ≥ limit then acc2
      else filterPostsAux minWords minScore limit acc2 rest

/-- `_filter_posts`. -/
def filterPosts (posts : List Json) (minWords minScore limit : Int) :
    List NormalizedPost :=
  filterPostsAux minWords minScore limit [] posts

/-- The exceptions that can reach `_run`'s per-domain handler.  The fetch
layer swallows every network error internally, so the only raiser left in
the loop body is `_extract_posts`, whose `child.get("kind")` on a
non-`dict` child raises `AttributeError` (not in its caught tuple);
`requests` timeout and connection errors are kept as constructors to give
the failure classifier its `isinstance` arms. -/
inductive PyExc where
  | attributeError (typeName : String)
  | requestTimeout
  | requestConnectionError

/-- Python `str(e)` for a classifier input (`str(None)` when no error was
recorded). -/
def pyStrOfErr : Option PyExc → String
  | none => "None"
  | some (.attributeError t) => "'" ++ t ++ "' object has no attribute 'get'"
  | some .requestTimeout => "timed out"
  | some .requestConnectionError => "Connection aborted"

/-- Outcome of scanning one `children` list in `_extract_posts`: the scan
completes, or a caught `KeyError`/`TypeError` aborts the whole extraction
returning what was accumulated, or an uncaught `AttributeError` escapes. -/
inductive ChildScan where
  | done (acc : List Json)
  | aborted (acc : List Json)
  | raised (e : PyExc)

/-- The inner `for child in …children` loop of `_extract_posts`: keep the
`data` block of each `kind == "t3"` child.  `child.get` on a non-`dict`
child raises `AttributeError` (escapes); `child["data"]` on a `t3` child
without a `data` key raises `KeyError` (caught: the exception handler ends
the whole loop and the accumulated list is returned). -/
def scanChildren (acc : List Json) : List Json → ChildScan
  | [] => .done acc
  | child :: rest =>
    match child with
    | .obj _ =>
      if (child.getD "kind" .null).eqStr "t3" then
        match child.get? "data" with
        | some d => scanChildren (acc ++ [d]) rest
        | none => .aborted acc
      else scanChildren acc rest
    | _ => .raised (.attributeError (pyTypeName child))

/-- Iterating a `children` value of any shape (`for child in v`): a
non-iterable raises a caught `TypeError`; iterating a `str` or `dict`
yields string children whose `get` raises `AttributeError`. -/
def scanChildrenVal (acc : List Json) (v : Json) : ChildScan :=
  match iterTargets v with
  | some cs => scanChildren acc cs
  | none => .aborted acc

/-- The list-payload loop of `_extract_posts` (`for item in data`): each
item contributes its `data.children` under the same rules; any caught
error ends the whole extraction with the accumulated list. -/
def scanItems (acc : List Json) : List Json → ChildScan
  | [] => .done acc
  | item :: rest =>
    match jsonIn item "data" with
    | none => .aborted acc
    | some false => scanItems acc rest
    | some true =>
      match pyIndex item "data" with
      | none => .aborted acc
      | some dd =>
        match jsonIn dd "children" with
        | none => .aborted acc
        | some false => scanItems acc rest
        | some true =>
          match pyIndex dd "children" with
          | none => .aborted acc
          | some v =>
            match scanChildrenVal acc v with
            | .done acc2 => scanItems acc2 rest
            | .aborted acc2 => .aborted acc2
            | .raised e => .raised e

/-- `_extract_posts`: normalise the three payload shapes into a flat list
of raw posts.  One `try` wraps the whole routine: a caught
`KeyError`/`TypeError`/`IndexError` ends extraction and returns the posts
accumulated so far, while a child's `AttributeError` escapes to the
caller (`.error`). -/
def extractPosts (data : Json) : Except PyExc (List Json) :=
  match data with
  | .obj _ =>
    match data.get? "data" with
    | some dd =>
      match jsonIn dd "children" with
      | none => .ok []
      | some true =>
        match pyIndex dd "children" with
        | none => .ok []
        | some v =>
          match scanChildrenVal [] v with
          | .done acc => .ok acc
          | .aborted acc => .ok acc
          | .raised e => .error e
      | some false =>
        match dd with
        | .obj _ => .ok [dd]
        | _ => .ok []
    | none => .ok []
  | .arr items =>
    match items with
    | [] => .ok []
    | _ :: _ =>
      match scanItems [] items with
      | .done acc => .ok acc
      | .aborted acc => .ok acc
      | .raised e => .error e
  | _ => .ok []

/-- One HTTP response, as the tool observes it: the status code, the result
of `response.json()` (`none` models the `json.JSONDecodeError` it raises on
a non-JSON body), and the result of the embedded-JSON recovery
`json.loads(re.search(r"window\\.__r = ({.*?});", response.text).group(1))`
(`none` models an empty body, no regex match, or a failing `loads`; the
regex and decoder are library code running over network text, so their
composite result is part of the environment). -/
structure HttpResponse where
  status : Nat
  json : Option Json
  embedded : Option Json

/-- Which header set a request carries: the session's browser headers or
the minimal alternate set used on a 403 retry. -/
inductive HeaderKind where
  | std
  | alt

/-- What one `session.get` call does: a response, or one of the exception
classes `_fetch_with_fallbacks` distinguishes (`ssl.SSLError`,
`requests.exceptions.Timeout`, `requests.exceptions.ConnectionError`, any
other exception). -/
inductive NetOutcome where
  | ok (r : HttpResponse)
  | sslError
  | timeout
  | connError
  | otherError

/-- The network: the outcome of a GET, by URL, header set and TLS
verification flag. -/
def Net : Type := String → HeaderKind → Bool → NetOutcome

/-- What one request variant contributes: return a payload immediately or
fall through to the next variant. -/
inductive VariantStep where
  | ret (d : Json)
  | cont

/-- The `except json.JSONDecodeError` arm: when the last response is truthy
(status below 400) try the embedded-JSON recovery on its body; any failure
inside falls through to the next variant. -/
def jsonDecodeFallback (r : HttpResponse) : VariantStep :=
  if r.status < 400 then
    match r.embedded with
    | some d => .ret d
    | none => .cont
  else .cont

/-- The `except ssl.SSLError` arm: retry the same variant with TLS
verification disabled and return its decoded body on a 200, validating
nothing; every failure inside this arm falls through. -/
def sslFallback (net : Net) (url : String) : VariantStep :=
  match net url .std false with
  | .ok r =>
    if r.status == 200 then
      match r.json with
      | some d => .ret d
      | none => .cont
    else .cont
  | _ => .cont

/-- One request variant of `_fetch_with_fallbacks`: on a 200 the decoded
body is returned only if `_validate_response` accepts it; on a 403 the
variant is retried with alternate headers and a 200 body is returned with
no validation; a 429 (after a cooldown) and every other status fall
through; the exception arms dispatch as in the source. -/
def tryVariant (net : Net) (url : String) : VariantStep :=
  match net url .std true with
  | .ok r =>
    if r.status == 200 then
      match r.json with
      | some d => if validateResponse d then .ret d else .cont
      | none => jsonDecodeFallback r
    else if r.status == 403 then
      match net url .alt true with
      | .ok r2 =>
        if r2.status == 200 then
          match r2.json with
          | some d => .ret d
          | none => jsonDecodeFallback r2
        else .cont
      | .sslError => sslFallback net url
      | _ => .cont
    else .cont
  | .sslError => sslFallback net url
  | .timeout => .cont
  | .connError => .cont
  | .otherError => .cont

/-- The variant loop of `_fetch_with_fallbacks`. -/
def fetchLoop (net : Net) : List String → Option Json
  | [] => none
  | url :: rest =>
    match tryVariant net url with
    | .ret d => some d
    | .cont => fetchLoop net rest

/-- `_fetch_with_fallbacks`: try the bare URL, then the `?limit=25` and
`?sort=hot&limit=25` variants; every error class is handled locally, so
the routine only ever signals failure by returning `none`. -/
def fetchWithFallbacks (net : Net) (apiUrl : String) : Option Json :=
  fetchLoop net [apiUrl, apiUrl ++ "?limit=25", apiUrl ++ "?sort=hot&limit=25"]

/-- The structured result `_run` serialises: the success record or the
failure record `_format_error` builds. -/
inductive FetchResult where
  | success (posts : List NormalizedPost) (totalFound : Nat)
      (source sourceType urlUsed : String)
  | failure (error errorCode userGuidance fallbackSuggestion : String)
      (timestamp : Nat)

/-- The fixed `fallback_suggestion` of `_format_error`. -/
def fallbackSuggestionText : String :=
  "As a backup, you can manually copy/paste Reddit content and provide it directly for analysis."

/-- `_format_error` (the timestamp is the caller-visible clock value). -/
def formatError (msg code guidance : String) (now : Nat) : FetchResult :=
  .failure msg code guidance fallbackSuggestionText now

/-- The `NO_VALID_CONTENT` guidance of `_handle_fetch_failure`: its
f-string interpolates the literals `{50}` and `{10}`, not the caller's
thresholds. -/
def noValidGuidance (source sourceType : String) : String :=
  "No posts in '" ++ source ++ "' meet your criteria (min_words: 50, min_score: 10). Try lowering the thresholds or choosing a different " ++ sourceType ++ "."

/-- `_handle_fetch_failure`: classify the last recorded error by
`isinstance` and by substrings of `str(last_error)`. -/
def handleFetchFailure (source sourceType : String) (lastError : Option PyExc)
    (now : Nat) : FetchResult :=
  match lastError with
  | some .requestTimeout =>
    formatError "All requests timed out after multiple attempts" "TIMEOUT_ERROR"
      "Reddit's servers are responding slowly. Try again in a few minutes, or consider using manual copy/paste as a backup method." now
  | some .requestConnectionError =>
    formatError "Unable to connect to Reddit servers" "CONNECTION_ERROR"
      "Network connection issue. Check your internet connection or try again later." now
  | _ =>
    let s := pyStrOfErr lastError
    if strContains s "403" || strContains s "Forbidden" then
      formatError ("Access to '" ++ source ++ "' is forbidden") "ACCESS_FORBIDDEN"
        ("The " ++ sourceType ++ " '" ++ source ++ "' may be private, banned, or restricted. Try a different " ++ sourceType ++ " or use manual copy/paste method.") now
    else if strContains s "404" || strContains s "Not Found" then
      formatError ("'" ++ source ++ "' does not exist") "NOT_FOUND"
        ("The " ++ sourceType ++ " '" ++ source ++ "' was not found. Check the spelling and try again.") now
    else if strContains s "429" || strContains (pyLower s) "rate limit" then
      formatError "Rate limited by Reddit after multiple attempts" "RATE_LIMITED"
        "Reddit is blocking requests due to high traffic. Wait 10-15 minutes before trying again, or use manual copy/paste as an alternative." now
    else
      formatError "No posts found meeting criteria after trying all fallback methods"
        "NO_VALID_CONTENT" (noValidGuidance source sourceType) now

/-- The per-domain loop of `_run`: fetch, extract, filter; a raised
extraction error is recorded as `last_error` and the loop continues; an
empty fetch, extraction or filter result also continues; exhaustion hands
the last error to the failure classifier. -/
def runLoop (net : Net) (now : Nat) (source sourceType : String)
    (minWords minScore limit : Int) (lastError : Option PyExc) :
    List String → FetchResult
  | [] => handleFetchFailure source sourceType lastError now
  | domainUrl :: rest =>
    match fetchWithFallbacks net domainUrl with
    | none => runLoop net now source sourceType minWords minScore limit lastError rest
    | some payload =>
      match extractPosts payload with
      | .error e =>
        runLoop net now source sourceType minWords minScore limit (some e) rest
      | .ok posts =>
        if posts.isEmpty then
          runLoop net now source sourceType minWords minScore limit lastError rest
        else
          let filtered := filterPosts posts minWords minScore limit
          if filtered.isEmpty then
            runLoop net now source sourceType minWords minScore limit lastError rest
          else .success filtered filtered.length source sourceType domainUrl

/-- The guidance of the `INVALID_SOURCE` result in `_run`. -/
def invalidSourceGuidance : String :=
  "Please check your source format and try again. For subreddits, use the name without 'r/'. For users, use the username without 'u/'. For URLs, ensure they are valid Reddit post URLs."

/-- `_run`: build the candidate URLs, report `INVALID_SOURCE` when none
could be built, otherwise walk the domain loop. -/
def run (net : Net) (now : Nat) (source sourceType : String)
    (minWords minScore : Int) (sortType : String) (limit : Int) : FetchResult :=
  let apiUrls := buildApiUrls source sourceType sortType
  if apiUrls.isEmpty then
    formatError ("Invalid source type '" ++ sourceType ++ "' or unable to parse URL")
      "INVALID_SOURCE" invalidSourceGuidance now
  else runLoop net now source sourceType minWords minScore limit none apiUrls

/-- The `error_code` of a result (`none` on success). -/
def FetchResult.errorCode : FetchResult → Option String
  | .success .. => none
  | .failure _ code _ _ _ => some code

/-- The `user_guidance` of a result (`none` on success). -/
def FetchResult.userGuidance : FetchResult → Option String
  | .success .. => none
  | .failure _ _ guidance _ _ => some guidance

/-- The `timestamp` of a result (`none` on success). -/
def FetchResult.timestamp : FetchResult → Option Nat
  | .success .. => none
  | .failure _ _ _ _ t => some t

/-- A network on which every request variant of every endpoint answers
HTTP 429, for the rate-limit scenario. -/
def net429 : Net := fun _ _ _ => .ok ⟨429, none, none⟩

lemma pyStrip_length_le (s : String) : (pyStrip s).length ≤ s.length := by
  have h1 := (List.dropWhile_suffix (l := s.data) Char.isWhitespace).length_le
  have h2 := (List.dropWhile_suffix
    (l := (s.data.dropWhile Char.isWhitespace).reverse) Char.isWhitespace).length_le
  simp only [pyStrip, String.length, String.mk]
  simp only [List.length_reverse] at *
  omega

lemma listInfix_iff (pat l : List Char) : listInfix pat l = true ↔ pat <:+: l := by
  induction l with
  | nil =>
    simp [listInfix, List.isEmpty_iff]
  | cons c rest ih =>
    simp only [listInfix, Bool.or_eq_true, List.isPrefixOf_iff_prefix, ih,
      List.infix_cons_iff]

lemma strContains_of_middle (pre mid suf pat : String)
    (h : listInfix pat.data mid.data = true) :
    strContains (pre ++ mid ++ suf) pat = true := by
  have hm : pat.data <:+: mid.data := (listInfix_iff _ _).mp h
  have : pat.data <:+: (pre ++ mid ++ suf).data := by
    rw [String.data_append, String.data_append]
    exact hm.trans (List.infix_append pre.data mid.data suf.data)
  exact (listInfix_iff _ _).mpr this

lemma filterPostsAux_eq_take (minWords minScore limit : Int) (posts : List Json)
    (acc : List NormalizedPost) (h : (acc.length : Int) < limit) :
    filterPostsAux minWords minScore limit acc posts =
      acc ++ (posts.filterMap (filterOne minWords minScore)).take
        (limit - acc.length).toNat := by
  induction posts generalizing acc with
  | nil => simp [filterPostsAux]
  | cons post rest ih =>
    simp only [filterPostsAux, List.filterMap_cons]
    cases hf : filterOne minWords minScore post with
    | none => exact ih acc h
    | some r =>
      simp only [List.length_append, List.length_cons, List.length_nil]
      by_cases hl : ((acc.length + 1 : Nat) : Int) ≥ limit
      · rw [if_pos hl]
        have h1 : (limit - acc.length).toNat = 1 := by omega
        rw [h1, List.take_succ_cons, List.take_zero]
      · rw [if_neg hl]
        have h2 : ((acc ++ [r]).length : Int) < limit := by
          simp only [List.length_append, List.length_cons, List.length_nil]
          omega
        rw [ih (acc ++ [r]) h2]
        have h3 : (limit - acc.length).toNat = (limit - (acc ++ [r]).length).toNat + 1 := by
          simp only [List.length_append, List.length_cons, List.length_nil]
          omega
        rw [h3, List.take_succ_cons, List.append_assoc]
        rfl

lemma filterPosts_eq_take (posts : List Json) (minWords minScore limit : Int)
    (h : 1 ≤ limit) :
    filterPosts posts minWords minScore limit =
      (posts.filterMap (filterOne minWords minScore)).take limit.toNat := by
  have := filterPostsAux_eq_take minWords minScore limit posts [] (by simpa using h)
  simpa [filterPosts] using this

lemma mem_filterPostsAux (minWords minScore limit : Int) (posts : List Json)
    (acc : List NormalizedPost) (r : NormalizedPost)
    (h : r ∈ filterPostsAux minWords minScore limit acc posts) :
    r ∈ acc ∨ ∃ p ∈ posts, filterOne minWords minScore p = some r := by
  induction posts generalizing acc with
  | nil => exact Or.inl h
  | cons post rest ih =>
    simp only [filterPostsAux] at h
    cases hf : filterOne minWords minScore post with
    | none =>
      rw [hf] at h
      rcases ih acc h with h1 | ⟨p, hp, hp2⟩
      · exact Or.inl h1
      · exact Or.inr ⟨p, List.mem_cons_of_mem _ hp, hp2⟩
    | some r2 =>
      rw [hf] at h
      dsimp only at h
      split at h
      · rcases List.mem_append.mp h with h1 | h1
        · exact Or.inl h1
        · rcases List.mem_singleton.mp h1 with rfl
          exact Or.inr ⟨post, List.mem_cons_self _ _, hf⟩
      · rcases ih (acc ++ [r2]) h with h1 | ⟨p, hp, hp2⟩
        · rcases List.mem_append.mp h1 with h2 | h2
          · exact Or.inl h2
          · rcases List.mem_singleton.mp h2 with rfl
            exact Or.inr ⟨post, List.mem_cons_self _ _, hf⟩
        · exact Or.inr ⟨p, List.mem_cons_of_mem _ hp, hp2⟩

lemma mem_filterPosts (posts : List Json) (minWords minScore limit : Int)
    (r : NormalizedPost) (h : r ∈ filterPosts posts minWords minScore limit) :
    ∃ p ∈ posts, filterOne minWords minScore p = some r := by
  rcases mem_filterPostsAux minWords minScore limit posts [] r h with h1 | h1
  · simp at h1
  · exact h1

lemma validatePostContent_inv (r : NormalizedPost)
    (h : validatePostContent r = true) :
    pyStrip r.title ≠ "" ∧ 10 ≤ (pyStrip r.full_content).length ∧
      ∀ ind ∈ spamIndicators, strContains (pyLower r.full_content) ind = false := by
  unfold validatePostContent at h
  split at h
  · exact absurd h (by simp)
  · split at h
    · exact absurd h (by simp)
    · split at h
      · exact absurd h (by simp)
      · rename_i h3
        refine ⟨by simp_all, by omega, ?_⟩
        intro ind hind
        have h4 : ¬ strContains (pyLower r.full_content) ind = true := by
          intro hc
          exact h3 (List.any_eq_true.mpr ⟨ind, hind, hc⟩)
        simpa using h4

lemma scoreOf_nonneg (post : Json) (s : Int) (h : scoreOf post = some s) :
    0 ≤ s := by
  unfold scoreOf at h
  split at h <;> simp_all <;> omega

lemma filterOne_inv (minWords minScore : Int) (post : Json) (r : NormalizedPost)
    (h : filterOne minWords minScore post = some r) :
    ∃ title selftext score postType,
      removedCheck post = false ∧
      contentOf post = some (title, selftext) ∧
      scoreOf post = some score ∧
      determinePostType post = some postType ∧
      r = mkRecord post title selftext (pyStrip (title ++ " " ++ selftext)) score
        (wordCountOf (pyStrip (title ++ " " ++ selftext))) postType ∧
      minWords ≤ (wordCountOf (pyStrip (title ++ " " ++ selftext)) : Int) ∧
      minScore ≤ score ∧
      validatePostContent r = true := by
  unfold filterOne at h
  split at h
  case h_2 => exact absurd h (by simp)
  split at h
  · exact absurd h (by simp)
  · rename_i hrem
    split at h
    · exact absurd h (by simp)
    · rename_i title selftext hcontent
      split at h
      · exact absurd h (by simp)
      · rename_i score hscore
        simp only [] at h
        split at h
        · exact absurd h (by simp)
        · rename_i hth
          split at h
          · exact absurd h (by simp)
          · rename_i postType hpt
            split at h
            · rename_i hval
              refine ⟨title, selftext, score, postType,
                Bool.of_not_eq_true hrem, hcontent, hscore, hpt, ?_, ?_, ?_, ?_⟩
              · exact (Option.some.injEq _ _ ▸ h).symm
              · simp only [Bool.or_eq_true, decide_eq_true_eq, not_or] at hth
                omega
              · simp only [Bool.or_eq_true, decide_eq_true_eq, not_or] at hth
                omega
              · rcases Option.some.inj h with rfl
                exact hval
            · exact absurd h (by simp)

lemma fullTextOf_eq (post : Json) (ft : String) (hft : fullTextOf post = some ft) :
    ∃ t s, contentOf post = some (t, s) ∧ pyStrip (t ++ " " ++ s) = ft := by
  rcases Option.map_eq_some'.mp hft with ⟨⟨t, s⟩, hc, hfe⟩
  exact ⟨t, s, hc, hfe⟩

lemma filterOne_wc_eq_zero (minWords minScore : Int) (post : Json) (ft : String)
    (hft : fullTextOf post = some ft)
    (hwc : (wordCountOf ft : Int) = minWords) :
    filterOne minWords minScore post = filterOne 0 minScore post := by
  rcases fullTextOf_eq post ft hft with ⟨t, s, hc, hfe⟩
  have hwc2 : (wordCountOf (pyStrip (t ++ " " ++ s)) : Int) = minWords := by
    rw [hfe]; exact hwc
  cases post with
  | obj fs =>
    simp only [filterOne, hc]
    have h1 : decide ((wordCountOf (pyStrip (t ++ " " ++ s)) : Int) < minWords) = false := by
      simp only [decide_eq_false_iff_not, not_lt]
      omega
    have h2 : decide ((wordCountOf (pyStrip (t ++ " " ++ s)) : Int) < 0) = false := by
      simp only [decide_eq_false_iff_not, not_lt]
      omega
    simp only [h1, h2]
  | null => rfl
  | bool b => rfl
  | int n => rfl
  | str s2 => rfl
  | arr xs => rfl

lemma filterOne_rejects_low_wc (minWords minScore : Int) (post : Json) (ft : String)
    (hft : fullTextOf post = some ft)
    (hlt : (wordCountOf ft : Int) < minWords) :
    filterOne minWords minScore post = none := by
  rcases fullTextOf_eq post ft hft with ⟨t, s, hc, hfe⟩
  have hwc2 : (wordCountOf (pyStrip (t ++ " " ++ s)) : Int) < minWords := by
    rw [hfe]; exact hlt
  cases post with
  | obj fs =>
    simp only [filterOne, hc]
    have h1 : decide ((wordCountOf (pyStrip (t ++ " " ++ s)) : Int) < minWords) = true := by
      simpa using hwc2
    simp only [h1, Bool.true_or, if_true]
    split
    · rfl
    · split <;> rfl
  | null => rfl
  | bool b => rfl
  | int n => rfl
  | str s2 => rfl
  | arr xs => rfl

/-- A raw post with no `selftext`, `is_self = false` and
`url = "https://example.com/a"` (the Scenario A child), with a free title
and score. -/
def c1Post (t : String) (sc : Int) : Json :=
  .obj [("title", .str t), ("is_self", .bool false),
        ("url", .str "https://example.com/a"), ("score", .int sc)]

/-- C1 (counterexample): a Scenario A child that passes the word and score
thresholds is admitted with `selftext = "Link to: example.com"` but with
`post_type = "other"`, not `"link"` — without a `post_hint`,
`_determine_post_type` reaches its final arm. -/
theorem c1_counterexample :
    (filterPosts
        [c1Post "an interesting linked article about many remarkable events" 100]
        1 0 1).map (fun r => (r.selftext, r.post_type)) =
      [("Link to: example.com", "other")] ∧
    ("other" : String) ≠ "link" :=
  ⟨by decide, by decide⟩

/-- C1 (amended): whenever the Post Filter admits a payload child that
lacks `selftext` and `post_hint` and `is_video`, has `is_self = false` and
`url = "https://example.com/a"`, the record it produces has
`selftext = "Link to: example.com"` and `post_type = "other"`. -/
theorem c1_link_post_record (t : String) (sc minWords minScore : Int)
    (h : (filterOne minWords minScore (c1Post t sc)).isSome) :
    (filterOne minWords minScore (c1Post t sc)).map
      (fun r => (r.selftext, r.post_type)) =
      some ("Link to: example.com", "other") := by
  rcases Option.isSome_iff_exists.mp h with ⟨r, hr⟩
  rcases filterOne_inv _ _ _ _ hr with
    ⟨title, selftext, score, postType, hrem, hc, hs, hpt, hrec, hwc, hms, hval⟩
  have hc2 : contentOf (c1Post t sc) = some (pyStrip t, "Link to: example.com") := rfl
  rw [hc2] at hc
  have hpt2 : determinePostType (c1Post t sc) = some "other" := rfl
  rw [hpt2] at hpt
  rcases Option.some.inj hc with hc3
  rcases Option.some.inj hpt with hpt3
  have hsel : selftext = "Link to: example.com" := congrArg Prod.snd hc3.symm
  rw [hr, hrec]
  simp only [Option.map_some', mkRecord]
  rw [hsel, ← hpt3]

/-- C1 witness: a concrete Scenario A child is admitted, so the amended
statement is not vacuous. -/
theorem c1_link_post_record_witness :
    (filterOne 1 0
        (c1Post "an interesting linked article about many remarkable events" 100)).map
      (fun r => (r.selftext, r.post_type)) =
      some ("Link to: example.com", "other") :=
  c1_link_post_record "an interesting linked article about many remarkable events"
    100 1 0 (by decide)

/-- C4: the word-count threshold of `_filter_posts` is a strict lower
cut-off and the boundary is inclusive.  Any raw post whose cleaned word
count over its (possibly synthesised) full text is strictly below
`min_words` is never admitted, whatever its score; and when the word count
equals `min_words` exactly, admission is decided by the remaining checks
alone (the record is admitted whenever the same post with the word-count
requirement dropped would be). -/
theorem c4_wordcount_threshold :
    (∀ (post : Json) (minWords minScore : Int) (ft : String),
      fullTextOf post = some ft →
      (wordCountOf ft : Int) < minWords →
      filterOne minWords minScore post = none) ∧
    (∀ (post : Json) (minWords minScore : Int) (ft : String),
      fullTextOf post = some ft →
      (wordCountOf ft : Int) = minWords →
      (filterOne 0 minScore post).isSome →
      (filterOne minWords minScore post).isSome) := by
  constructor
  · intro post minWords minScore ft h1 h2
    exact filterOne_rejects_low_wc minWords minScore post ft h1 h2
  · intro post minWords minScore ft h1 h2 h3
    rw [filterOne_wc_eq_zero minWords minScore post ft h1 h2]
    exact h3

/-- A three-long-token post (`word_count = 3`) with score 100, for the
boundary witnesses. -/
def c4SmallPost : Json :=
  .obj [("title", .str "tiny words here"), ("score", .int 100)]

/-- C4 witness: the three-word post is rejected at `min_words = 50` even
with a high score, and admitted at exactly `min_words = 3`. -/
theorem c4_wordcount_threshold_witness :
    filterOne 50 10 c4SmallPost = none ∧
    (filterOne 3 0 c4SmallPost).isSome := by
  constructor
  · exact c4_wordcount_threshold.1 c4SmallPost 50 10 "tiny words here"
      (by decide) (by decide)
  · exact c4_wordcount_threshold.2 c4SmallPost 3 0 "tiny words here"
      (by decide) (by decide) (by decide)

/-- C5: for `limit ≥ 1` the Post Filter output is the `limit`-prefix of the
full admitted sequence: its length is at most `limit`, admitted posts keep
their input order (the output is exactly a prefix of the order-preserving
`filterMap` of the admission function), and shrinking the limit only
truncates the tail, never reorders. -/
theorem c5_limit_monotone (posts : List Json) (minWords minScore l1 l2 : Int)
    (h1 : 1 ≤ l1) (h12 : l1 ≤ l2) :
    (filterPosts posts minWords minScore l1).length ≤ l1.toNat ∧
    filterPosts posts minWords minScore l1 =
      (posts.filterMap (filterOne minWords minScore)).take l1.toNat ∧
    filterPosts posts minWords minScore l1 =
      (filterPosts posts minWords minScore l2).take l1.toNat := by
  have e1 := filterPosts_eq_take posts minWords minScore l1 h1
  have e2 := filterPosts_eq_take posts minWords minScore l2 (le_trans h1 h12)
  refine ⟨?_, e1, ?_⟩
  · rw [e1, List.length_take]
    exact Nat.min_le_left _ _
  · rw [e1, e2, List.take_take]
    congr 1
    omega

/-- An admissible post used by the bounded-output witnesses. -/
def c5Post : Json :=
  .obj [("title", .str "several plainly counted words right here today"),
        ("score", .int 50)]

/-- C5 witness: concrete limits 1 ≤ 2 on a two-post input. -/
theorem c5_limit_monotone_witness :
    (filterPosts [c5Post, c5Post] 1 0 1).length ≤ (1 : Int).toNat ∧
    filterPosts [c5Post, c5Post] 1 0 1 =
      ([c5Post, c5Post].filterMap (filterOne 1 0)).take (1 : Int).toNat ∧
    filterPosts [c5Post, c5Post] 1 0 1 =
      (filterPosts [c5Post, c5Post] 1 0 2).take (1 : Int).toNat :=
  c5_limit_monotone [c5Post, c5Post] 1 0 1 2 (by decide) (by decide)

/-- C6: every record the Post Filter emits satisfies the `NormalizedPost`
invariant: word count at least `min_words`, score at least `min_score` and
never negative, nonempty stripped title, full content at least 10
characters long, and no spam marker in the lowercased full content. -/
theorem c6_output_invariant (posts : List Json) (minWords minScore limit : Int)
    (i : Nat) (h : i < (filterPosts posts minWords minScore limit).length) :
    minWords ≤ ((filterPosts posts minWords minScore limit)[i].word_count : Int) ∧
    minScore ≤ (filterPosts posts minWords minScore limit)[i].score ∧
    0 ≤ (filterPosts posts minWords minScore limit)[i].score ∧
    pyStrip (filterPosts posts minWords minScore limit)[i].title ≠ "" ∧
    10 ≤ (filterPosts posts minWords minScore limit)[i].full_content.length ∧
    ∀ ind ∈ spamIndicators,
      strContains (pyLower (filterPosts posts minWords minScore limit)[i].full_content)
        ind = false := by
  have hmem : (filterPosts posts minWords minScore limit)[i] ∈
      filterPosts posts minWords minScore limit := List.getElem_mem h
  rcases mem_filterPosts _ _ _ _ _ hmem with ⟨p, hp, hpf⟩
  rcases filterOne_inv _ _ _ _ hpf with
    ⟨title, selftext, score, postType, hrem, hc, hs, hpt, hrec, hwc, hms, hval⟩
  rcases validatePostContent_inv _ hval with ⟨hv1, hv2, hv3⟩
  refine ⟨?_, ?_, ?_, hv1, ?_, hv3⟩
  · rw [hrec]
    simpa only [mkRecord] using hwc
  · rw [hrec]
    simpa only [mkRecord] using hms
  · rw [hrec]
    simpa only [mkRecord] using scoreOf_nonneg _ _ hs
  · exact le_trans hv2 (pyStrip_length_le _)

/-- C6 witness: a concrete admitted record, checked at index 0. -/
theorem c6_output_invariant_witness :
    (0 : Nat) < (filterPosts [c5Post] 1 0 5).length ∧
    1 ≤ ((filterPosts [c5Post] 1 0 5)[0].word_count : Int) :=
  have h : (0 : Nat) < (filterPosts [c5Post] 1 0 5).length := by decide
  ⟨h, (c6_output_invariant [c5Post] 1 0 5 0 h).1⟩

/-- A well-formed listing child: `kind = "t3"` with a `data` block. -/
def goodChild (d : Json) : Json :=
  .obj [("kind", .str "t3"), ("data", d)]

/-- A listing payload with the given children. -/
def listingPayload (cs : List Json) : Json :=
  .obj [("data", .obj [("children", .arr cs)])]

lemma extractPosts_listing (cs : List Json) :
    extractPosts (listingPayload cs) =
      match scanChildren [] cs with
      | .done acc => .ok acc
      | .aborted acc => .ok acc
      | .raised e => .error e := rfl

lemma scanChildren_map_good (ds : List Json) (rest acc : List Json) :
    scanChildren acc (ds.map goodChild ++ rest) = scanChildren (acc ++ ds) rest := by
  induction ds generalizing acc with
  | nil => simp
  | cons d ds ih =>
    have h1 : scanChildren acc (goodChild d :: (ds.map goodChild ++ rest)) =
        scanChildren (acc ++ [d]) (ds.map goodChild ++ rest) := rfl
    rw [List.map_cons, List.cons_append, h1, ih]
    rw [List.append_assoc]
    rfl

/-- C3 (counterexample): in a listing whose second child is a `t3` entry
without a `data` block, the `KeyError` ends the whole scan — the
well-formed third child never reaches the output; and a non-mapping child
makes extraction raise `AttributeError` instead of skipping it. -/
theorem c3_counterexample :
    extractPosts (listingPayload
        [goodChild (.int 1), .obj [("kind", .str "t3")], goodChild (.int 2)]) =
      .ok [.int 1] ∧
    Json.int 2 ∉ [Json.int 1] ∧
    extractPosts (listingPayload [goodChild (.int 1), .int 7, goodChild (.int 2)]) =
      .error (.attributeError "int") := by
  refine ⟨rfl, ?_, rfl⟩
  simp

/-- C3 (amended): a field-access error on an individual child ends the
scan early instead of skipping just that child: children extracted before
the bad one are kept, the well-formed children after it are lost, and a
caught `KeyError` returns that partial list, while a non-mapping child
raises `AttributeError` out of the extractor (to be caught by `_run`'s
per-domain handler). -/
theorem c3_child_error_aborts (ds : List Json) (d2 : Json) :
    extractPosts (listingPayload
        (ds.map goodChild ++ [Json.obj [("kind", .str "t3")]] ++ [goodChild d2])) =
      .ok ds ∧
    extractPosts (listingPayload (ds.map goodChild ++ [Json.int 7] ++ [goodChild d2])) =
      .error (.attributeError "int") := by
  constructor
  · rw [extractPosts_listing, List.append_assoc, scanChildren_map_good]
    rfl
  · rw [extractPosts_listing, List.append_assoc, scanChildren_map_good]
    rfl

lemma scanChildren_raised (cs : List Json) (acc : List Json) (e : PyExc)
    (h : scanChildren acc cs = .raised e) :
    ∃ j : Json, e = .attributeError (pyTypeName j) := by
  induction cs generalizing acc with
  | nil => simp [scanChildren] at h
  | cons c rest ih =>
    cases c with
    | obj fs =>
      simp only [scanChildren] at h
      split at h
      · split at h
        · exact ih _ h
        · exact absurd h (by simp)
      · exact ih _ h
    | null =>
      simp only [scanChildren] at h
      exact ⟨.null, (ChildScan.raised.inj h).symm⟩
    | bool b =>
      simp only [scanChildren] at h
      exact ⟨.bool b, (ChildScan.raised.inj h).symm⟩
    | int n =>
      simp only [scanChildren] at h
      exact ⟨.int n, (ChildScan.raised.inj h).symm⟩
    | str s =>
      simp only [scanChildren] at h
      exact ⟨.str s, (ChildScan.raised.inj h).symm⟩
    | arr xs =>
      simp only [scanChildren] at h
      exact ⟨.arr xs, (ChildScan.raised.inj h).symm⟩

lemma scanChildrenVal_raised (acc : List Json) (v : Json) (e : PyExc)
    (h : scanChildrenVal acc v = .raised e) :
    ∃ j : Json, e = .attributeError (pyTypeName j) := by
  unfold scanChildrenVal at h
  split at h
  · exact scanChildren_raised _ _ _ h
  · exact absurd h (by simp)

lemma scanItems_raised (items : List Json) (acc : List Json) (e : PyExc)
    (h : scanItems acc items = .raised e) :
    ∃ j : Json, e = .attributeError (pyTypeName j) := by
  induction items generalizing acc with
  | nil => simp [scanItems] at h
  | cons item rest ih =>
    simp only [scanItems] at h
    split at h
    · exact absurd h (by simp)
    · exact ih _ h
    · split at h
      · exact absurd h (by simp)
      · split at h
        · exact absurd h (by simp)
        · exact ih _ h
        · split at h
          · exact absurd h (by simp)
          · split at h
            · exact ih _ h
            · exact absurd h (by simp)
            · rename_i hscan
              rcases ChildScan.raised.inj h with rfl
              exact scanChildrenVal_raised _ _ _ hscan

lemma extractPosts_error_shape (data : Json) (e : PyExc)
    (h : extractPosts data = .error e) :
    ∃ j : Json, e = .attributeError (pyTypeName j) := by
  unfold extractPosts at h
  split at h
  · split at h
    · split at h
      · exact absurd h (by simp)
      · split at h
        · exact absurd h (by simp)
        · split at h
          · exact absurd h (by simp)
          · exact absurd h (by simp)
          · rename_i hscan
            rcases Except.error.inj h with rfl
            exact scanChildrenVal_raised _ _ _ hscan
      · split at h
        · exact absurd h (by simp)
        · exact absurd h (by simp)
    · exact absurd h (by simp)
  · split at h
    · exact absurd h (by simp)
    · split at h
      · exact absurd h (by simp)
      · exact absurd h (by simp)
      · rename_i hscan
        rcases Except.error.inj h with rfl
        exact scanItems_raised _ _ _ hscan
  · exact absurd h (by simp)

/-- The shapes `last_error` can take in `_run`: nothing recorded, or an
`AttributeError` escaping `_extract_posts`. -/
def ErrOk (lastError : Option PyExc) : Prop :=
  lastError = none ∨ ∃ j : Json, lastError = some (.attributeError (pyTypeName j))

lemma runLoop_shape (net : Net) (now : Nat) (source sourceType : String)
    (minWords minScore limit : Int) (urls : List String)
    (lastError : Option PyExc) (hle : ErrOk lastError) :
    (∃ ps u, runLoop net now source sourceType minWords minScore limit lastError urls =
        .success ps ps.length source sourceType u) ∨
    (∃ le2, ErrOk le2 ∧
      runLoop net now source sourceType minWords minScore limit lastError urls =
        handleFetchFailure source sourceType le2 now) := by
  induction urls generalizing lastError with
  | nil => exact Or.inr ⟨lastError, hle, rfl⟩
  | cons u rest ih =>
    simp only [runLoop]
    split
    · exact ih lastError hle
    · split
      · rename_i payload hfetch e hextract
        exact ih (some e) (Or.inr (by
          rcases extractPosts_error_shape _ _ hextract with ⟨j, rfl⟩
          exact ⟨j, rfl⟩))
      · split
        · exact ih lastError hle
        · split
          · exact ih lastError hle
          · rename_i posts hextract hne filtered? hf
            exact Or.inl ⟨_, u, rfl⟩

lemma handleFetchFailure_errOk (source sourceType : String) (now : Nat)
    (lastError : Option PyExc) (hle : ErrOk lastError) :
    handleFetchFailure source sourceType lastError now =
      formatError "No posts found meeting criteria after trying all fallback methods"
        "NO_VALID_CONTENT" (noValidGuidance source sourceType) now := by
  rcases hle with rfl | ⟨j, rfl⟩
  · simp only [handleFetchFailure, pyStrOfErr]
    rw [if_neg (by decide), if_neg (by decide), if_neg (by decide)]
  · cases j <;>
      · simp only [handleFetchFailure, pyStrOfErr, pyTypeName]
        rw [if_neg (by decide), if_neg (by decide), if_neg (by decide)]

lemma buildApiUrls_subreddit (source sortType : String) :
    buildApiUrls source "subreddit" sortType =
      domains.map (fun d =>
        "https://" ++ d ++ "/r/" ++ stripSlashes (dropPat source "r/") ++ "/" ++
          (if sortModes.contains sortType then sortType else "hot") ++ ".json") := by
  by_cases hs : sortType ∈ sortModes
  · simp [buildApiUrls, domains, hs]
  · simp [buildApiUrls, domains, hs]
    have h1 : ("/hot.json" : String) = "/" ++ "hot" ++ ".json" := by decide
    constructor <;> (rw [h1]; simp [String.append_assoc])

lemma buildApiUrls_user (source sortType : String) :
    buildApiUrls source "user" sortType =
      domains.map (fun d =>
        "https://" ++ d ++ "/user/" ++ stripSlashes (dropPat source "u/") ++
          "/submitted.json") := by
  simp [buildApiUrls, domains]

lemma buildApiUrls_url_nonreddit (source sortType : String)
    (h : strContains (urlNetloc source) "reddit.com" = false) :
    buildApiUrls source "url" sortType = [] := by
  simp [buildApiUrls, domains, h]

/-- C7: for subreddit and user descriptors the URL Builder emits exactly
one endpoint per mirror domain, following the fixed path templates, with
an unrecognised sort mode replaced by `hot`; for a URL descriptor whose
parsed host does not contain `reddit.com` (including unparseable inputs,
whose netloc is empty), no mirror contributes a candidate, and the empty
candidate list surfaces as the `INVALID_SOURCE` failure rather than an
exception. -/
theorem c7_url_builder (net : Net) (now : Nat) (source : String)
    (minWords minScore : Int) (sortType : String) (limit : Int) :
    (buildApiUrls source "subreddit" sortType).length = domains.length ∧
    (buildApiUrls source "user" sortType).length = domains.length ∧
    buildApiUrls source "subreddit" sortType =
      domains.map (fun d =>
        "https://" ++ d ++ "/r/" ++ stripSlashes (dropPat source "r/") ++ "/" ++
          (if sortModes.contains sortType then sortType else "hot") ++ ".json") ∧
    buildApiUrls source "user" sortType =
      domains.map (fun d =>
        "https://" ++ d ++ "/user/" ++ stripSlashes (dropPat source "u/") ++
          "/submitted.json") ∧
    (strContains (urlNetloc source) "reddit.com" = false →
      buildApiUrls source "url" sortType = [] ∧
      (run net now source "url" minWords minScore sortType limit).errorCode =
        some "INVALID_SOURCE") := by
  refine ⟨?_, ?_, buildApiUrls_subreddit source sortType,
    buildApiUrls_user source sortType, ?_⟩
  · rw [buildApiUrls_subreddit]
    exact List.length_map _ _
  · rw [buildApiUrls_user]
    exact List.length_map _ _
  · intro h
    have he := buildApiUrls_url_nonreddit source sortType h
    refine ⟨he, ?_⟩
    unfold run
    rw [he]
    rfl

/-- C7 witness: the unparseable Scenario E source with a nonstandard sort
mode. -/
theorem c7_url_builder_witness :
    buildApiUrls "badname!!" "url" "weird" = [] ∧
    (run net429 1 "badname!!" "url" 50 10 "weird" 1).errorCode =
      some "INVALID_SOURCE" :=
  (c7_url_builder net429 1 "badname!!" 50 10 "weird" 1).2.2.2.2 (by decide)

/-- C8: the fetch layer signals failure only by returning `none` (every
network exception is handled inside `_fetch_with_fallbacks`), so the only
exception `_run` can record is the extractor's `AttributeError`; on total
exhaustion the classifier therefore never sees a network error and the
returned `error_code` is always `INVALID_SOURCE` or `NO_VALID_CONTENT` —
never `TIMEOUT_ERROR`, `CONNECTION_ERROR`, `ACCESS_FORBIDDEN`,
`NOT_FOUND` or `RATE_LIMITED`. -/
theorem c8_error_code_range (net : Net) (now : Nat) (source sourceType : String)
    (minWords minScore : Int) (sortType : String) (limit : Int) :
    ((run net now source sourceType minWords minScore sortType limit).errorCode = none ∨
      (run net now source sourceType minWords minScore sortType limit).errorCode =
        some "INVALID_SOURCE" ∨
      (run net now source sourceType minWords minScore sortType limit).errorCode =
        some "NO_VALID_CONTENT") ∧
    ∀ c ∈ ["TIMEOUT_ERROR", "CONNECTION_ERROR", "ACCESS_FORBIDDEN", "NOT_FOUND",
        "RATE_LIMITED"],
      (run net now source sourceType minWords minScore sortType limit).errorCode ≠
        some c := by
  have main : (run net now source sourceType minWords minScore sortType limit).errorCode = none ∨
      (run net now source sourceType minWords minScore sortType limit).errorCode =
        some "INVALID_SOURCE" ∨
      (run net now source sourceType minWords minScore sortType limit).errorCode =
        some "NO_VALID_CONTENT" := by
    simp only [run]
    split
    · right; left; rfl
    · rcases runLoop_shape net now source sourceType minWords minScore limit _
        none (Or.inl rfl) with ⟨ps, u, hs⟩ | ⟨le2, hok, he⟩
      · rw [hs]
        exact Or.inl rfl
      · rw [he, handleFetchFailure_errOk source sourceType now le2 hok]
        right; right; rfl
  refine ⟨main, ?_⟩
  intro c hc h
  rcases main with h1 | h1 | h1 <;> rw [h1] at h <;> fin_cases hc <;> simp_all

lemma tryVariant_429 (net : Net) (u : String)
    (h429 : ∀ u2 hk v, ∃ r, net u2 hk v = .ok r ∧ r.status = 429) :
    tryVariant net u = .cont := by
  rcases h429 u .std true with ⟨r, hr, hs⟩
  unfold tryVariant
  rw [hr]
  simp [hs]

lemma fetchWithFallbacks_429 (net : Net) (u : String)
    (h429 : ∀ u2 hk v, ∃ r, net u2 hk v = .ok r ∧ r.status = 429) :
    fetchWithFallbacks net u = none := by
  have ht : ∀ u2, tryVariant net u2 = .cont := fun u2 => tryVariant_429 net u2 h429
  simp [fetchWithFallbacks, fetchLoop, ht]

/-- C2 (counterexample): on a network whose every request variant on every
mirror answers HTTP 429, the top-level result's `error_code` is
`NO_VALID_CONTENT`, not `RATE_LIMITED` — the 429s are swallowed inside
`_fetch_with_fallbacks`, so no error ever reaches the classifier. -/
theorem c2_counterexample :
    (run net429 1 "politics" "subreddit" 50 10 "hot" 1).errorCode ≠
      some "RATE_LIMITED" ∧
    (run net429 1 "politics" "subreddit" 50 10 "hot" 1).errorCode =
      some "NO_VALID_CONTENT" := by
  constructor <;> decide

/-- C2 (amended): if every request variant of every mirror endpoint
returns HTTP 429, the top-level fetch returns the Failure variant with
`error_code = NO_VALID_CONTENT` and a nonzero timestamp (the clock value
is positive whenever the wall clock is). -/
theorem c2_all_429_no_valid_content (net : Net) (now : Nat) (source : String)
    (minWords minScore : Int) (sortType : String) (limit : Int)
    (h429 : ∀ u hk v, ∃ r, net u hk v = .ok r ∧ r.status = 429)
    (hnow : 0 < now) :
    (run net now source "subreddit" minWords minScore sortType limit).errorCode =
      some "NO_VALID_CONTENT" ∧
    (run net now source "subreddit" minWords minScore sortType limit).timestamp =
      some now ∧
    0 < now := by
  have hf : ∀ u, fetchWithFallbacks net u = none :=
    fun u => fetchWithFallbacks_429 net u h429
  have hrun : run net now source "subreddit" minWords minScore sortType limit =
      handleFetchFailure source "subreddit" none now := by
    simp only [run, buildApiUrls_subreddit, domains, List.map_cons, List.map_nil,
      List.isEmpty_cons, if_false, Bool.false_eq_true]
    simp [runLoop, hf]
  rw [hrun, handleFetchFailure_errOk _ _ _ _ (Or.inl rfl)]
  exact ⟨rfl, rfl, hnow⟩

/-- C2 witness: the all-429 network at clock value 5. -/
theorem c2_all_429_no_valid_content_witness :
    (run net429 5 "politics" "subreddit" 50 10 "hot" 1).errorCode =
      some "NO_VALID_CONTENT" ∧
    (run net429 5 "politics" "subreddit" 50 10 "hot" 1).timestamp = some 5 ∧
    0 < 5 :=
  c2_all_429_no_valid_content net429 5 "politics" 50 10 "hot" 1
    (fun _ _ _ => ⟨⟨429, none, none⟩, rfl, rfl⟩) (by decide)

/-- A network that always answers 200 with the given decoded body. -/
def netPrimary (d : Json) : Net := fun _ _ _ => .ok ⟨200, some d, none⟩

/-- A network that answers 403 to the browser headers and 200 with the
given body to the alternate headers. -/
def net403 (d : Json) : Net := fun _ hk _ =>
  match hk with
  | .std => .ok ⟨403, none, none⟩
  | .alt => .ok ⟨200, some d, none⟩

/-- A network whose TLS-verified requests fail the handshake and whose
unverified requests answer 200 with the given body. -/
def netSSL (d : Json) : Net := fun _ _ verify =>
  if verify then .sslError else .ok ⟨200, some d, none⟩

/-- A network that answers 200 with a non-JSON body whose embedded-JSON
recovery yields the given value. -/
def netEmbedded (d : Json) : Net := fun _ _ _ => .ok ⟨200, none, some d⟩

/-- C9: `_validate_response` guards only the primary status-200 path.  A
payload the validator rejects is never returned from that path, but the
same payload is returned unvalidated — and so reaches `_extract_posts` —
through the 403 alternate-header retry, the SSL-verification-disabled
retry, and the embedded-JSON extraction from an HTML body. -/
theorem c9_unvalidated_fallback_paths (d : Json) (u : String)
    (h : validateResponse d = false) :
    fetchWithFallbacks (netPrimary d) u = none ∧
    fetchWithFallbacks (net403 d) u = some d ∧
    fetchWithFallbacks (netSSL d) u = some d ∧
    fetchWithFallbacks (netEmbedded d) u = some d := by
  refine ⟨?_, ?_, ?_, ?_⟩
  · simp [fetchWithFallbacks, fetchLoop, tryVariant, netPrimary, h]
  · simp [fetchWithFallbacks, fetchLoop, tryVariant, net403]
  · simp [fetchWithFallbacks, fetchLoop, tryVariant, sslFallback, netSSL]
  · simp [fetchWithFallbacks, fetchLoop, tryVariant, jsonDecodeFallback, netEmbedded]

/-- An empty listing: syntactically well-formed, rejected by the
validator. -/
def c9EmptyListing : Json := .obj [("data", .obj [("children", .arr [])])]

/-- C9 witness: the empty listing flows through every fallback path. -/
theorem c9_unvalidated_fallback_paths_witness :
    fetchWithFallbacks (netPrimary c9EmptyListing) "u" = none ∧
    fetchWithFallbacks (net403 c9EmptyListing) "u" = some c9EmptyListing ∧
    fetchWithFallbacks (netSSL c9EmptyListing) "u" = some c9EmptyListing ∧
    fetchWithFallbacks (netEmbedded c9EmptyListing) "u" = some c9EmptyListing :=
  c9_unvalidated_fallback_paths c9EmptyListing "u" (by decide)

/-- C10: whenever the pipeline fails with `NO_VALID_CONTENT`, the
`user_guidance` text is the fixed string that interpolates the literals
`50` and `10` — whatever `min_words` and `min_score` the caller supplied
(they do not occur in the statement's right-hand side) — and that text
contains `(min_words: 50, min_score: 10)`. -/
theorem c10_hardcoded_guidance (net : Net) (now : Nat)
    (source sourceType : String) (minWords minScore : Int) (sortType : String)
    (limit : Int) :
    ((run net now source sourceType minWords minScore sortType limit).errorCode =
        some "NO_VALID_CONTENT" →
      (run net now source sourceType minWords minScore sortType limit).userGuidance =
        some (noValidGuidance source sourceType)) ∧
    strContains (noValidGuidance source sourceType)
      "(min_words: 50, min_score: 10)" = true := by
  constructor
  · intro h
    by_cases hempty : (buildApiUrls source sourceType sortType).isEmpty
    · simp only [run, hempty, if_true, formatError, FetchResult.errorCode] at h
      exact absurd (Option.some.inj h) (by decide)
    · have he : (buildApiUrls source sourceType sortType).isEmpty = false :=
        Bool.eq_false_iff.mpr hempty
      simp only [run, he, Bool.false_eq_true, if_false] at h ⊢
      rcases runLoop_shape net now source sourceType minWords minScore limit _
        none (Or.inl rfl) with ⟨ps, u, hs⟩ | ⟨le2, hok, hh⟩
      · rw [hs] at h
        exact absurd h (by simp [FetchResult.errorCode])
      · rw [hh, handleFetchFailure_errOk _ _ _ _ hok]
        rfl
  · have hmid := strContains_of_middle ("No posts in '" ++ source)
      "' meet your criteria (min_words: 50, min_score: 10). Try lowering the thresholds or choosing a different "
      (sourceType ++ ".") "(min_words: 50, min_score: 10)" (by decide)
    rw [← String.append_assoc] at hmid
    exact hmid

/-- C10 witness: a failing fetch called with thresholds 99/99 still
reports 50/10. -/
theorem c10_hardcoded_guidance_witness :
    (run net429 1 "politics" "subreddit" 99 99 "hot" 1).userGuidance =
      some (noValidGuidance "politics" "subreddit") ∧
    strContains (noValidGuidance "politics" "subreddit")
      "(min_words: 50, min_score: 10)" = true :=
  ⟨(c10_hardcoded_guidance net429 1 "politics" "subreddit" 99 99 "hot" 1).1
      (by decide),
    (c10_hardcoded_guidance net429 1 "politics" "subreddit" 99 99 "hot" 1).2⟩
